import Mathlib

/-!
Shallow embedding of the DataMind in-memory tabular query engine
(`src/services/csv-tools.ts`, bundled in `src/app/chat/page.tsx`, together
with `inferColumnTypes` from `src/lib/csv-context.tsx`).

JS runtime values `string | number | null` are modelled by `Value`; a
possibly-`undefined` property read `row[col]` is an `Option Value` with
`none` standing for `undefined`.  JS numbers are modelled by exact
rationals (`ℚ`); `NaN` is modelled by `Option ℚ = none` at the points the
code produces or tests it.  `Array.prototype.sort` (stable in every modern
engine) is modelled by a stable insertion sort parameterised by
`le a b := cmp a b ≤ 0` for the source comparator `cmp`.
-/

namespace DataMind

/-- Integer square root by bounded linear search (kernel-computable; see
`natSqrt_eq`). -/
def sqrtLinear (n : ℕ) : ℕ → ℕ → ℕ
  | k, 0 => k
  | k, f + 1 => if (k + 1) * (k + 1) ≤ n then sqrtLinear n (k + 1) f else k

/-- Integer square root, equal to `Nat.sqrt` (`natSqrt_eq`). -/
def natSqrt (n : ℕ) : ℕ := sqrtLinear n 0 n

/-- Trim ASCII whitespace from both ends (models JS `String.prototype.trim`). -/
def strTrim (s : String) : String :=
  String.mk (((s.data.dropWhile Char.isWhitespace).reverse.dropWhile
    Char.isWhitespace).reverse)

/-- Models JS `String.prototype.toLowerCase`. -/
def strLower (s : String) : String := String.mk (s.data.map Char.toLower)

/-- Lexicographic code-point order on character lists. -/
def charListLt : List Char → List Char → Bool
  | [], [] => false
  | [], _ :: _ => true
  | _ :: _, [] => false
  | c :: cs, d :: ds => c < d || (c == d && charListLt cs ds)

/-- A JS value stored in a row: `string | number | null`. -/
inductive Value where
  | str (s : String)
  | num (q : ℚ)
  | null
deriving DecidableEq, Repr

/-- A row object `Record<string, string | number | null>`, as an ordered
association list of its own enumerable keys. -/
abbrev Row := List (String × Value)

/-- Property read `row[col]`: `none` models `undefined` (absent key). -/
def rowGet (r : Row) (c : String) : Option Value := r.lookup c

/-- Models JS `String(n)` for a number `n`; exact on integers (the only
numeric string forms the development evaluates).  Non-integral rationals
render as `num/den`, a fixed deterministic form. -/
def numToString (q : ℚ) : String :=
  if q.den = 1 then toString q.num else toString q.num ++ "/" ++ toString q.den

/-- JS `String(v ?? "")`: `null`/`undefined` become `""`. -/
def jsStr : Option Value → String
  | none => ""
  | some .null => ""
  | some (.str s) => s
  | some (.num q) => numToString q

/-- JS `String(v)` on a present value. -/
def valueToString : Value → String
  | .str s => s
  | .num q => numToString q
  | .null => "null"

/-- Accumulate a digit list into a natural number. -/
def digitsToNat (cs : List Char) : ℕ :=
  cs.foldl (fun n c => n * 10 + (c.toNat - 48)) 0

/-- Unsigned decimal literal: digits, optionally followed by `.` and
fraction digits; at least one digit overall. -/
def parseUnsigned (cs : List Char) : Option ℚ :=
  let ip := cs.takeWhile Char.isDigit
  let rest := cs.dropWhile Char.isDigit
  match rest with
  | [] => if ip.isEmpty then none else some (digitsToNat ip : ℚ)
  | '.' :: fp =>
      if fp.all Char.isDigit && !(ip.isEmpty && fp.isEmpty) then
        some ((digitsToNat ip : ℚ) + (digitsToNat fp : ℚ) / (10 : ℚ) ^ fp.length)
      else none
  | _ => none

/-- Models JS `Number(s)` on a string: trims whitespace, `""` is `0`,
signed decimal literals parse, anything else is `NaN` (`none`).
(Exponent/hex/`Infinity` literal forms are not modelled; no claim
exercises them.) -/
def strToNum (s : String) : Option ℚ :=
  let t := strTrim s
  if t = "" then some 0
  else
    match t.toList with
    | '-' :: rest => (parseUnsigned rest).map (fun q => -q)
    | '+' :: rest => parseUnsigned rest
    | cs => parseUnsigned cs

/-- Models JS `Number(v)`; `none` models `NaN`.  `Number(null) = 0`,
`Number(undefined)` is `NaN`. -/
def jsNum : Option Value → Option ℚ
  | none => none
  | some .null => some 0
  | some (.num q) => some q
  | some (.str s) => strToNum s

/-- The test `v === null || v === undefined || v === ""`. -/
def isNullish : Option Value → Bool
  | none => true
  | some .null => true
  | some (.str s) => s == ""
  | some (.num _) => false

/-- The test `v === null || v === undefined`. -/
def isNullJS : Option Value → Bool
  | none => true
  | some .null => true
  | _ => false

/-- JS `Math.round(q * 100) / 100` (round half toward positive infinity,
which on `ℚ` is Mathlib `round`). -/
def jsRound2 (q : ℚ) : ℚ := (round (q * 100) : ℚ) / 100

/-- The composite `Math.round(Math.sqrt v * 100)` of the stdDev
computation, evaluated exactly on rationals: returns the nearest natural
to `100·√v` (half rounds up), via the characterisation
`(2n-1)² ≤ ⌊40000·v⌋ < (2n+1)²`. -/
def round100sqrt (v : ℚ) : ℕ := (natSqrt (Int.toNat ⌊(40000 : ℚ) * v⌋) + 1) / 2

/-- Stable insertion: place `x` before the first `y` with `le x y`. -/
def insertBy (le : α → α → Bool) (x : α) : List α → List α
  | [] => [x]
  | y :: ys => if le x y then x :: y :: ys else y :: insertBy le x ys

/-- Stable insertion sort; models stable `Array.prototype.sort(cmp)` with
`le a b := cmp a b ≤ 0`. -/
def insertionSort (le : α → α → Bool) : List α → List α
  | [] => []
  | x :: xs => insertBy le x (insertionSort le xs)

/-- Models `a.localeCompare(b)` by code-point order; only the sign is ever
used by the sorts. -/
def strCompare (a b : String) : Int :=
  if charListLt a.data b.data then -1 else if charListLt b.data a.data then 1 else 0

/-- Sign of the numeric comparator `(a, b) => a - b`. -/
def numCompare (a b : ℚ) : Int :=
  if a < b then -1 else if b < a then 1 else 0

/-- Is `needle` a prefix of `hay`? -/
def beginsWith : List Char → List Char → Bool
  | [], _ => true
  | _ :: _, [] => false
  | c :: cs, d :: ds => c == d && beginsWith cs ds

/-- Does `hay` contain `needle` as a contiguous run? -/
def containsSub (needle : List Char) : List Char → Bool
  | [] => needle.isEmpty
  | c :: t => beginsWith needle (c :: t) || containsSub needle t

/-- JS `s.includes(sub)`. -/
def strIncludes (s sub : String) : Bool := containsSub sub.toList s.toList

/-- Column type literal `"string" | "number" | "date"` from the source. -/
inductive ColType where
  | string
  | number
  | date
deriving DecidableEq, Repr

/-- The loaded dataset (`CsvData` from `csv-context.tsx`). -/
structure CsvData where
  fileName : String
  headers : List String
  rows : List Row
  columnTypes : List (String × ColType)
  totalRows : ℕ
deriving DecidableEq, Repr

/-- The `throw` message of `getData`/`getHeaders` when no table is loaded. -/
def noDataMsg : String := "No CSV data loaded. Please upload a file first."

/-- The unknown-column `throw` message. -/
def unknownColMsg (c : String) (headers : List String) : String :=
  "Column \x22" ++ c ++ "\x22 not found. Available columns: " ++
    String.intercalate ", " headers

-- ──────────────────────────────────────────────
-- Tool 1: getColumnStats
-- ──────────────────────────────────────────────

structure ColumnStatsInput where
  column : String
deriving DecidableEq, Repr

structure ColumnStatsOutput where
  column : String
  count : ℕ
  nullCount : ℕ
  uniqueCount : ℕ
  min : Option ℚ
  max : Option ℚ
  mean : Option ℚ
  median : Option ℚ
  stdDev : Option ℚ
deriving DecidableEq, Repr

def getColumnStats (ref : Option CsvData) (input : ColumnStatsInput) :
    Except String ColumnStatsOutput :=
  match ref with
  | none => .error noDataMsg
  | some d =>
    if input.column ∈ d.headers then
      let values := d.rows.map (fun r => rowGet r input.column)
      let numericValues := (values.filter (fun v => !isNullish v)).filterMap jsNum
      let nullCount := (values.filter isNullish).length
      let uniqueCount := (values.map jsStr).dedup.length
      if numericValues.length = 0 then
        .ok ⟨input.column, values.length, nullCount, uniqueCount,
             none, none, none, none, none⟩
      else
        let sorted := insertionSort (fun a b => decide (a ≤ b)) numericValues
        let s := numericValues.foldl (· + ·) 0
        let mean := s / (numericValues.length : ℚ)
        let median :=
          if numericValues.length % 2 = 0 then
            (sorted.getD (numericValues.length / 2 - 1) 0 +
             sorted.getD (numericValues.length / 2) 0) / 2
          else sorted.getD (numericValues.length / 2) 0
        let variance :=
          (numericValues.foldl (fun acc v => acc + (v - mean) ^ 2) 0) /
            (numericValues.length : ℚ)
        .ok ⟨input.column, values.length, nullCount, uniqueCount,
             some (sorted.getD 0 0), some (sorted.getD (sorted.length - 1) 0),
             some (jsRound2 mean), some (jsRound2 median),
             some ((round100sqrt variance : ℚ) / 100)⟩
    else .error (unknownColMsg input.column d.headers)

-- ──────────────────────────────────────────────
-- Tool 2: queryData
-- ──────────────────────────────────────────────

inductive SortOrder where
  | asc
  | desc
deriving DecidableEq, Repr

/-- A filter value `string | number`. -/
inductive FilterVal where
  | str (s : String)
  | num (q : ℚ)
deriving DecidableEq, Repr

/-- The lowercased string form
`typeof f.value === "string" ? f.value.toLowerCase() : f.value`
followed by `String(·)`. -/
def FilterVal.lowerStr : FilterVal → String
  | .str s => strLower s
  | .num q => numToString q

/-- `Number(f.value)` on the raw filter value. -/
def FilterVal.toNum : FilterVal → Option ℚ
  | .str s => strToNum s
  | .num q => some q

/-- A filter condition.  The operator is kept as the runtime string the
source `switch` dispatches on; the seven valid literals are
`equals, notEquals, contains, gt, lt, gte, lte`. -/
structure QueryFilter where
  column : String
  operator : String
  value : FilterVal
deriving DecidableEq, Repr

structure QueryDataInput where
  filters : Option (List QueryFilter) := none
  columns : Option (List String) := none
  limit : Option ℕ := none
  offset : Option ℕ := none
  sortBy : Option String := none
  sortOrder : Option SortOrder := none
deriving DecidableEq, Repr

structure QueryDataOutput where
  rows : List Row
  totalMatched : ℕ
  columns : List String
deriving DecidableEq, Repr

/-- One filter condition evaluated against one row: the source `switch`,
including its `default: return true` branch. -/
def evalFilter (row : Row) (f : QueryFilter) : Bool :=
  let val := rowGet row f.column
  let strVal := strLower (jsStr val)
  if f.operator = "equals" then strVal == f.value.lowerStr
  else if f.operator = "notEquals" then strVal != f.value.lowerStr
  else if f.operator = "contains" then strIncludes strVal f.value.lowerStr
  else if f.operator = "gt" then
    match jsNum val, f.value.toNum with
    | some a, some b => decide (b < a)
    | _, _ => false
  else if f.operator = "lt" then
    match jsNum val, f.value.toNum with
    | some a, some b => decide (a < b)
    | _, _ => false
  else if f.operator = "gte" then
    match jsNum val, f.value.toNum with
    | some a, some b => decide (b ≤ a)
    | _, _ => false
  else if f.operator = "lte" then
    match jsNum val, f.value.toNum with
    | some a, some b => decide (a ≤ b)
    | _, _ => false
  else true

/-- Filter stage: applied only when the filter list is a non-empty list. -/
def filterStage (rows : List Row) (fs? : Option (List QueryFilter)) : List Row :=
  match fs? with
  | some fs => if fs.length > 0 then rows.filter (fun r => fs.all (evalFilter r)) else rows
  | none => rows

def filteredRows (d : CsvData) (input : QueryDataInput) : List Row :=
  filterStage d.rows input.filters

/-- `input.sortOrder === "desc" ? -1 : 1`. -/
def sortDir (so : Option SortOrder) : Int :=
  match so with
  | some .desc => -1
  | _ => 1

/-- The row comparator of `queryData`'s sort stage. -/
def sortCmp (c : String) (dir : Int) (a b : Row) : Int :=
  let aVal := rowGet a c
  let bVal := rowGet b c
  if isNullJS aVal then 1
  else if isNullJS bVal then -1
  else
    match aVal, bVal with
    | some (.num x), some (.num y) => numCompare x y * dir
    | _, _ => strCompare (jsStr aVal) (jsStr bVal) * dir

/-- Sort stage: the guard is `input.sortBy && allHeaders.includes(input.sortBy)`,
so by JS truthiness the empty string skips the sort even when it is a
header. -/
def sortStage (d : CsvData) (sb : Option String) (so : Option SortOrder)
    (l : List Row) : List Row :=
  match sb with
  | some c =>
    if c ≠ "" ∧ c ∈ d.headers then
      insertionSort (fun a b => decide (sortCmp c (sortDir so) a b ≤ 0)) l
    else l
  | none => l

def sortedRows (d : CsvData) (input : QueryDataInput) : List Row :=
  sortStage d input.sortBy input.sortOrder (filteredRows d input)

/-- Projection column list: `input.columns?.length ? … : allHeaders`. -/
def projStage (d : CsvData) (cs? : Option (List String)) : List String :=
  match cs? with
  | some cs => if cs.length ≠ 0 then cs.filter (fun c => d.headers.contains c) else d.headers
  | none => d.headers

def projCols (d : CsvData) (input : QueryDataInput) : List String :=
  projStage d input.columns

/-- Projection of one row onto the selected columns.  `result[col] = row[col]`
with an absent key assigns `undefined`, observationally the key is absent. -/
def projectRow (cols : List String) (r : Row) : Row :=
  cols.filterMap (fun c => (rowGet r c).map (fun v => (c, v)))

def queryData (ref : Option CsvData) (input : QueryDataInput) :
    Except String QueryDataOutput :=
  match ref with
  | none => .error noDataMsg
  | some d =>
    let sorted := sortedRows d input
    let totalMatched := sorted.length
    let offset := input.offset.getD 0
    let limit := input.limit.getD 50
    let page := (sorted.drop offset).take limit
    let columns := projCols d input
    .ok ⟨page.map (projectRow columns), totalMatched, columns⟩

/-- The `rows` field of a `queryData` call (empty on error). -/
def queryRowsOf (s : Option CsvData) (i : QueryDataInput) : List Row :=
  match queryData s i with
  | .ok o => o.rows
  | .error _ => []

/-- The `totalMatched` field of a `queryData` call (0 on error). -/
def queryTotalOf (s : Option CsvData) (i : QueryDataInput) : ℕ :=
  match queryData s i with
  | .ok o => o.totalMatched
  | .error _ => 0

-- ──────────────────────────────────────────────
-- Tool 3: getDataSample
-- ──────────────────────────────────────────────

structure DataSampleInput where
  numRows : Option ℕ := none
deriving DecidableEq, Repr

structure DataSampleOutput where
  headers : List String
  rows : List Row
  totalRows : ℕ
  columnTypes : List (String × ColType)
deriving DecidableEq, Repr

def getDataSample (ref : Option CsvData) (input : DataSampleInput) :
    Except String DataSampleOutput :=
  match ref with
  | none => .error noDataMsg
  | some d => .ok ⟨d.headers, d.rows.take (input.numRows.getD 10), d.totalRows, d.columnTypes⟩

-- ──────────────────────────────────────────────
-- Tool 4: getColumnValues
-- ──────────────────────────────────────────────

structure ColumnValuesInput where
  column : String
  limit : Option ℕ := none
deriving DecidableEq, Repr

structure ColumnValueItem where
  value : String
  count : ℕ
  percentage : ℚ
deriving DecidableEq, Repr

structure ColumnValuesOutput where
  column : String
  uniqueCount : ℕ
  values : List ColumnValueItem
deriving DecidableEq, Repr

/-- `counts.set(val, (counts.get(val) ?? 0) + 1)` on an insertion-ordered
map (JS `Map` iterates in insertion order). -/
def bumpCount : List (String × ℕ) → String → List (String × ℕ)
  | [], k => [(k, 1)]
  | (k', n) :: t, k => if k' = k then (k', n + 1) :: t else (k', n) :: bumpCount t k

/-- The frequency map of a column's string forms, in insertion order. -/
def buildCounts (rows : List Row) (c : String) : List (String × ℕ) :=
  rows.foldl (fun acc r => bumpCount acc (jsStr (rowGet r c))) []

/-- `Math.round((count / total) * 10000) / 100`. -/
def pctOf (total : ℕ) (count : ℕ) : ℚ :=
  (round ((count : ℚ) / (total : ℚ) * 10000) : ℚ) / 100

def getColumnValues (ref : Option CsvData) (input : ColumnValuesInput) :
    Except String ColumnValuesOutput :=
  match ref with
  | none => .error noDataMsg
  | some d =>
    if input.column ∈ d.headers then
      let counts := buildCounts d.rows input.column
      let total := d.rows.length
      let sorted :=
        (insertionSort (fun a b => decide (b.2 ≤ a.2)) counts).take (input.limit.getD 50)
      .ok ⟨input.column, counts.length,
           sorted.map (fun p => ⟨p.1, p.2, pctOf total p.2⟩)⟩
    else .error (unknownColMsg input.column d.headers)

-- ──────────────────────────────────────────────
-- Tool 5: aggregateData
-- ──────────────────────────────────────────────

inductive AggOp where
  | sum
  | avg
  | count
  | min
  | max
deriving DecidableEq, Repr

inductive AggSortKey where
  | group
  | value
deriving DecidableEq, Repr

structure AggregateDataInput where
  groupBy : String
  aggregateColumn : String
  operation : AggOp
  sortBy : Option AggSortKey := none
  sortOrder : Option SortOrder := none
  limit : Option ℕ := none
deriving DecidableEq, Repr

structure AggregateItem where
  group : String
  value : ℚ
deriving DecidableEq, Repr

structure AggregateDataOutput where
  groupBy : String
  aggregateColumn : String
  operation : AggOp
  results : List AggregateItem
deriving DecidableEq, Repr

/-- Group-map update: the group entry is created unconditionally
(`if (!groups.has(groupVal)) groups.set(groupVal, [])`); the coerced value
is appended only when it is not `NaN`. -/
def addToGroups : List (String × List ℚ) → String → Option ℚ → List (String × List ℚ)
  | [], k, v => [(k, v.toList)]
  | (k', vs) :: t, k, v =>
    if k' = k then (k', vs ++ v.toList) :: t else (k', vs) :: addToGroups t k v

/-- The grouping pass over all rows, in insertion order of group keys. -/
def buildGroups (rows : List Row) (gb ac : String) : List (String × List ℚ) :=
  rows.foldl (fun acc r => addToGroups acc (jsStr (rowGet r gb)) (jsNum (rowGet r ac))) []

/-- The per-group reduction `switch (input.operation)`. -/
def aggReduce (op : AggOp) (vs : List ℚ) : ℚ :=
  match op with
  | .sum => vs.foldl (· + ·) 0
  | .avg => if vs.length > 0 then vs.foldl (· + ·) 0 / (vs.length : ℚ) else 0
  | .count => (vs.length : ℚ)
  | .min => match vs with
    | [] => 0
    | x :: xs => xs.foldl (fun a b => if b < a then b else a) x
  | .max => match vs with
    | [] => 0
    | x :: xs => xs.foldl (fun a b => if a < b then b else a) x

/-- The result comparator: by value when `sortBy === "value"`, else by
group key. -/
def aggCmp (key : Option AggSortKey) (dir : Int) (a b : AggregateItem) : Int :=
  match key with
  | some .value => numCompare a.value b.value * dir
  | _ => strCompare a.group b.group * dir

def aggregateData (ref : Option CsvData) (input : AggregateDataInput) :
    Except String AggregateDataOutput :=
  match ref with
  | none => .error noDataMsg
  | some d =>
    if input.groupBy ∈ d.headers then
      if input.aggregateColumn ∈ d.headers then
        let groups := buildGroups d.rows input.groupBy input.aggregateColumn
        let results := groups.map
          (fun p => AggregateItem.mk p.1 (jsRound2 (aggReduce input.operation p.2)))
        let sorted := insertionSort
          (fun a b => decide (aggCmp input.sortBy (sortDir input.sortOrder) a b ≤ 0)) results
        let final :=
          match input.limit with
          | some n => if n ≠ 0 then sorted.take n else sorted
          | none => sorted
        .ok ⟨input.groupBy, input.aggregateColumn, input.operation, final⟩
      else .error (unknownColMsg input.aggregateColumn d.headers)
    else .error (unknownColMsg input.groupBy d.headers)

-- ──────────────────────────────────────────────
-- inferColumnTypes (csv-context.tsx)
-- ──────────────────────────────────────────────

/-- The anchored ISO pattern `^\d{4}-\d{2}-\d{2}`. -/
def matchISODate (cs : List Char) : Bool :=
  let d1 := cs.takeWhile Char.isDigit
  let r1 := cs.dropWhile Char.isDigit
  d1.length == 4 &&
    match r1 with
    | '-' :: r2 =>
      let d2 := r2.takeWhile Char.isDigit
      let r3 := r2.dropWhile Char.isDigit
      d2.length == 2 &&
        match r3 with
        | '-' :: r4 => decide (2 ≤ (r4.takeWhile Char.isDigit).length)
        | _ => false
    | _ => false

/-- The anchored pattern `^\d{1,2}sep\d{1,2}sep\d{2,4}` (`sep` is `/` or `-`). -/
def matchSepDate (sep : Char) (cs : List Char) : Bool :=
  let d1 := cs.takeWhile Char.isDigit
  let r1 := cs.dropWhile Char.isDigit
  decide (1 ≤ d1.length ∧ d1.length ≤ 2) &&
    match r1 with
    | c :: r2 =>
      c == sep &&
        (let d2 := r2.takeWhile Char.isDigit
         let r3 := r2.dropWhile Char.isDigit
         decide (1 ≤ d2.length ∧ d2.length ≤ 2) &&
           match r3 with
           | c2 :: r4 => c2 == sep && decide (2 ≤ (r4.takeWhile Char.isDigit).length)
           | [] => false)
    | [] => false

/-- `datePatterns.some(p => p.test(strVal))`. -/
def isDateShaped (s : String) : Bool :=
  matchISODate s.toList || matchSepDate '/' s.toList || matchSepDate '-' s.toList

/-- The numeric vote `!isNaN(Number(strVal)) && strVal !== ""` on the
trimmed string form. -/
def inferNumeric (v : Value) : Bool :=
  let strVal := strTrim (valueToString v)
  (strToNum strVal).isSome && strVal != ""

/-- `sampleSize = Math.min(rows.length, 100)` rows of the sample. -/
def sampleRows (rows : List Row) : List Row := rows.take (min rows.length 100)

/-- The non-null (and non-empty-string) values of the sample at a header. -/
def nonNullSample (rows : List Row) (h : String) : List Value :=
  (rows.map (fun r => rowGet r h)).filterMap (fun ov => if isNullish ov then none else ov)

def totalNonNull (rows : List Row) (h : String) : ℕ :=
  (nonNullSample (sampleRows rows) h).length

def numericCount (rows : List Row) (h : String) : ℕ :=
  ((nonNullSample (sampleRows rows) h).filter inferNumeric).length

/-- Date votes: cast only by values that failed the numeric check
(the source `continue`s after a numeric match). -/
def dateCount (rows : List Row) (h : String) : ℕ :=
  ((nonNullSample (sampleRows rows) h).filter
    (fun v => !inferNumeric v && isDateShaped (strTrim (valueToString v)))).length

/-- Per-header classification with the two strict 80% thresholds. -/
def classifyColumn (rows : List Row) (h : String) : ColType :=
  if totalNonNull rows h = 0 then .string
  else if (numericCount rows h : ℚ) / (totalNonNull rows h : ℚ) > 8 / 10 then .number
  else if (dateCount rows h : ℚ) / (totalNonNull rows h : ℚ) > 8 / 10 then .date
  else .string

def inferColumnTypes (headers : List String) (rows : List Row) :
    List (String × ColType) :=
  headers.map (fun h => (h, classifyColumn rows h))

-- ──────────────────────────────────────────────
-- Concrete tables used as test fixtures
-- ──────────────────────────────────────────────

/-- The one-column table whose column holds `[10, 20, 30, null, "x"]`. -/
def statsT : CsvData :=
  { fileName := "stats.csv", headers := ["col"],
    rows := [[("col", Value.num 10)], [("col", Value.num 20)], [("col", Value.num 30)],
             [("col", Value.null)], [("col", Value.str "x")]],
    columnTypes := [("col", ColType.number)], totalRows := 5 }

/-- A two-column table: `g` is a text key, `v` holds a non-numeric string
in the first row and a number in the second. -/
def pairT : CsvData :=
  { fileName := "pair.csv", headers := ["g", "v"],
    rows := [[("g", Value.str "a"), ("v", Value.str "x")],
             [("g", Value.str "b"), ("v", Value.num 5)]],
    columnTypes := [("g", ColType.string), ("v", ColType.string)], totalRows := 2 }

/-- A well-formed three-row table with a null in column `a`. -/
def wideT : CsvData :=
  { fileName := "wide.csv", headers := ["a", "b"],
    rows := [[("a", Value.num 2), ("b", Value.str "x")],
             [("a", Value.null), ("b", Value.str "y")],
             [("a", Value.num 1), ("b", Value.str "x")]],
    columnTypes := [("a", ColType.number), ("b", ColType.string)], totalRows := 3 }

/-- A table whose only header is the empty string, with a null row ahead
of a numeric row. -/
def emptyHeadT : CsvData :=
  { fileName := "empty-header.csv", headers := [""],
    rows := [[("", Value.null)], [("", Value.num 1)]],
    columnTypes := [("", ColType.number)], totalRows := 2 }

-- ──────────────────────────────────────────────
-- General lemmas
-- ──────────────────────────────────────────────

deriving instance DecidableEq for Except

attribute [local semireducible] Rat.add Rat.mul Rat.sub Rat.inv

theorem sqrtLinear_eq (n : ℕ) : ∀ f k, k * k ≤ n → n < (k + f + 1) * (k + f + 1) →
    sqrtLinear n k f = Nat.sqrt n := by
  intro f
  induction f with
  | zero =>
    intro k h1 h2
    have h2' : n < (k + 1) * (k + 1) := by
      have e : k + 1 = k + 0 + 1 := by omega
      rw [e]; exact h2
    simp only [sqrtLinear]
    have ha : k ≤ Nat.sqrt n := Nat.le_sqrt.mpr h1
    have hb : Nat.sqrt n < k + 1 := Nat.sqrt_lt.mpr h2'
    omega
  | succ f ih =>
    intro k h1 h2
    simp only [sqrtLinear]
    by_cases h : (k + 1) * (k + 1) ≤ n
    · rw [if_pos h]
      apply ih (k + 1) h
      have e : k + 1 + f + 1 = k + (f + 1) + 1 := by omega
      rw [e]; exact h2
    · rw [if_neg h]
      have ha : k ≤ Nat.sqrt n := Nat.le_sqrt.mpr h1
      have hb : Nat.sqrt n < k + 1 := Nat.sqrt_lt.mpr (by omega)
      omega

/-- `natSqrt` agrees with the library integer square root. -/
theorem natSqrt_eq (n : ℕ) : natSqrt n = Nat.sqrt n := by
  apply sqrtLinear_eq n n 0 (by omega)
  nlinarith

theorem insertBy_perm (le : α → α → Bool) (x : α) :
    ∀ l : List α, List.Perm (insertBy le x l) (x :: l) := by
  intro l
  induction l with
  | nil => simp [insertBy]
  | cons y ys ih =>
    simp only [insertBy]
    by_cases h : le x y
    · rw [if_pos h]
    · rw [if_neg h]
      exact (ih.cons y).trans (List.Perm.swap x y ys)

theorem insertionSort_perm (le : α → α → Bool) :
    ∀ l : List α, List.Perm (insertionSort le l) l := by
  intro l
  induction l with
  | nil => simp [insertionSort]
  | cons x xs ih =>
    simp only [insertionSort]
    exact (insertBy_perm le x (insertionSort le xs)).trans (ih.cons x)

theorem mem_insertionSort (le : α → α → Bool) (l : List α) (a : α) :
    a ∈ insertionSort le l ↔ a ∈ l :=
  (insertionSort_perm le l).mem_iff

theorem length_insertionSort (le : α → α → Bool) (l : List α) :
    (insertionSort le l).length = l.length :=
  (insertionSort_perm le l).length_eq

theorem mem_insertBy (le : α → α → Bool) (x : α) (l : List α) (a : α) :
    a ∈ insertBy le x l ↔ a = x ∨ a ∈ l := by
  rw [(insertBy_perm le x l).mem_iff, List.mem_cons]

/-- Inserting preserves the pairwise invariant "once `P` holds it holds to
the end", provided `le` sends `P`-elements after everything and
non-`P`-elements before `P`-elements. -/
theorem pairwise_insertBy {P : α → Bool} {le : α → α → Bool}
    (h1 : ∀ a b, P a = true → le a b = false)
    (h2 : ∀ a b, P a = false → P b = true → le a b = true)
    (x : α) :
    ∀ l : List α, l.Pairwise (fun a b => P a = true → P b = true) →
      (insertBy le x l).Pairwise (fun a b => P a = true → P b = true) := by
  intro l
  induction l with
  | nil =>
    intro _
    simp [insertBy]
  | cons y ys ih =>
    intro hl
    rw [List.pairwise_cons] at hl
    obtain ⟨hy, hys⟩ := hl
    simp only [insertBy]
    by_cases h : le x y
    · rw [if_pos h]
      refine List.Pairwise.cons ?_ (List.Pairwise.cons hy hys)
      intro z _ hPx
      exact absurd h (by simp [h1 x y hPx])
    · rw [if_neg h]
      refine List.Pairwise.cons ?_ (ih hys)
      intro z hz
      rw [mem_insertBy] at hz
      rcases hz with rfl | hz
      · intro hPy
        by_cases hPx : P z = true
        · exact hPx
        · exact absurd (h2 z y (by simpa using hPx) hPy) h
      · exact hy z hz

/-- The sorted list keeps `P`-elements at the end under the hypotheses of
`pairwise_insertBy`. -/
theorem pairwise_insertionSort {P : α → Bool} {le : α → α → Bool}
    (h1 : ∀ a b, P a = true → le a b = false)
    (h2 : ∀ a b, P a = false → P b = true → le a b = true) :
    ∀ l : List α, (insertionSort le l).Pairwise (fun a b => P a = true → P b = true) := by
  intro l
  induction l with
  | nil => simp [insertionSort]
  | cons x xs ih =>
    simp only [insertionSort]
    exact pairwise_insertBy h1 h2 x _ ih

/-- Splitting a list into consecutive `N`-chunks by `drop`/`take`. -/
theorem flatMap_chunks (L : List α) (N : ℕ) :
    ∀ k, ((List.range k).map (fun i => (L.drop (i * N)).take N)).flatten = L.take (k * N) := by
  intro k
  induction k with
  | zero => simp
  | succ k ih =>
    rw [List.range_succ, List.map_append, List.flatten_append]
    rw [ih]
    simp only [List.map_cons, List.map_nil, List.flatten_cons, List.flatten_nil,
      List.append_nil]
    rw [Nat.succ_mul, List.take_add]

-- ──────────────────────────────────────────────
-- Claim theorems
-- ──────────────────────────────────────────────

set_option maxRecDepth 100000 in
/-- C4: on a table whose single column holds `[10, 20, 30, null, "x"]`,
`getColumnStats` returns `count = 5`, `nullCount = 1`, `uniqueCount = 5`,
`min = 10`, `max = 30`, `mean = 20`, `median = 20`, and
`stdDev = 8.16 = 204/25`, the population standard deviation of
`[10, 20, 30]` rounded to 2 decimal places. -/
theorem C4_stats_concrete :
    getColumnStats (some statsT) ⟨"col"⟩ =
      .ok ⟨"col", 5, 1, 5, some 10, some 30, some 20, some 20, some (204 / 25)⟩ := by
  decide

/-- C9: determinism — for a fixed table-slot state and fixed inputs, each
of the five engine operations returns identical output across two calls
(each operation is a pure function of the slot and the input). -/
theorem C9_determinism (s : Option CsvData) (i1 : ColumnStatsInput)
    (i2 : QueryDataInput) (i3 : DataSampleInput) (i4 : ColumnValuesInput)
    (i5 : AggregateDataInput) :
    getColumnStats s i1 = getColumnStats s i1 ∧
    queryData s i2 = queryData s i2 ∧
    getDataSample s i3 = getDataSample s i3 ∧
    getColumnValues s i4 = getColumnValues s i4 ∧
    aggregateData s i5 = aggregateData s i5 :=
  ⟨rfl, rfl, rfl, rfl, rfl⟩

/-- C10: `queryData` with `columns = []` behaves exactly as with `columns`
omitted: the output is identical, and the `columns` field is the full
header list. -/
theorem C10_empty_columns (d : CsvData) (fs : Option (List QueryFilter))
    (lim off : Option ℕ) (sb : Option String) (so : Option SortOrder) :
    queryData (some d) ⟨fs, some [], lim, off, sb, so⟩ =
      queryData (some d) ⟨fs, none, lim, off, sb, so⟩ ∧
    ∃ o, queryData (some d) ⟨fs, some [], lim, off, sb, so⟩ = .ok o ∧
      o.columns = d.headers := by
  constructor
  · simp [queryData, projCols, projStage, sortedRows, filteredRows]
  · exact ⟨_, rfl, by simp [queryData, projCols, projStage]⟩

/-- C1 counterexample: with a loaded table, `queryData` called with a
filter whose column is absent from the headers returns a result object
(`.ok`) instead of failing with the unknown-column error. -/
theorem C1_counterexample :
    "zzz" ∉ pairT.headers ∧
    queryData (some pairT) { filters := some [⟨"zzz", "equals", FilterVal.str "a"⟩] } =
      .ok ⟨[], 0, ["g", "v"]⟩ :=
  ⟨by decide, by decide⟩

/-- C1 (amended): of the five operations, `getColumnStats`,
`getColumnValues` and `aggregateData` (for either column argument) fail
with the unknown-column error when given a column absent from the headers,
while `queryData` never fails: a filter naming an unknown column and an
unknown `sortBy` are processed without error and a result object is
returned. -/
theorem C1_amended (d : CsvData) (c ac : String) (hc : c ∉ d.headers)
    (op : AggOp) (sk : Option AggSortKey) (so : Option SortOrder)
    (lim lim2 : Option ℕ) (iq iq2 : QueryDataInput) (f : QueryFilter)
    (hf : f.column = c) (hq : iq.filters = some [f]) (hq2 : iq2.sortBy = some c) :
    (∃ e, getColumnStats (some d) ⟨c⟩ = .error e) ∧
    (∃ e, getColumnValues (some d) ⟨c, lim⟩ = .error e) ∧
    (∃ e, aggregateData (some d) ⟨c, ac, op, sk, so, lim2⟩ = .error e) ∧
    (∃ e, aggregateData (some d) ⟨ac, c, op, sk, so, lim2⟩ = .error e) ∧
    (∃ o, queryData (some d) iq = .ok o) ∧
    (∃ o, queryData (some d) iq2 = .ok o) := by
  refine ⟨?_, ?_, ?_, ?_, ⟨_, rfl⟩, ⟨_, rfl⟩⟩
  · exact ⟨unknownColMsg c d.headers, by simp [getColumnStats, hc]⟩
  · exact ⟨unknownColMsg c d.headers, by simp [getColumnValues, hc]⟩
  · exact ⟨unknownColMsg c d.headers, by simp [aggregateData, hc]⟩
  · by_cases hac : ac ∈ d.headers
    · exact ⟨unknownColMsg c d.headers, by simp [aggregateData, hac, hc]⟩
    · exact ⟨unknownColMsg ac d.headers, by simp [aggregateData, hac]⟩

/-- C1 witness: the amended statement applied to a concrete table and the
unknown column `"zzz"`. -/
theorem C1_amended_witness :
    "zzz" ∉ pairT.headers ∧
    ((∃ e, getColumnStats (some pairT) ⟨"zzz"⟩ = .error e) ∧
     (∃ e, getColumnValues (some pairT) ⟨"zzz", none⟩ = .error e) ∧
     (∃ e, aggregateData (some pairT) ⟨"zzz", "v", AggOp.sum, none, none, none⟩ = .error e) ∧
     (∃ e, aggregateData (some pairT) ⟨"v", "zzz", AggOp.sum, none, none, none⟩ = .error e) ∧
     (∃ o, queryData (some pairT)
        { filters := some [⟨"zzz", "equals", FilterVal.str "a"⟩] } = .ok o) ∧
     (∃ o, queryData (some pairT) { sortBy := some "zzz" } = .ok o)) :=
  ⟨by decide,
   C1_amended pairT "zzz" "v" (by decide) AggOp.sum none none none none
     { filters := some [⟨"zzz", "equals", FilterVal.str "a"⟩] }
     { sortBy := some "zzz" }
     ⟨"zzz", "equals", FilterVal.str "a"⟩ rfl rfl rfl⟩

/-- C3 counterexample: a filter whose operator is the unrecognized literal
`"like"` is not rejected: `queryData` returns a result object in which
every row passed the condition. -/
theorem C3_counterexample :
    "like" ∉ (["equals", "notEquals", "contains", "gt", "lt", "gte", "lte"] : List String) ∧
    queryData (some pairT) { filters := some [⟨"g", "like", FilterVal.str "nope"⟩] } =
      .ok ⟨[[("g", Value.str "a"), ("v", Value.str "x")],
            [("g", Value.str "b"), ("v", Value.num 5)]], 2, ["g", "v"]⟩ :=
  ⟨by decide, by decide⟩

/-- C3 (amended): a filter condition whose operator is not one of the
seven enumerated literals is not rejected anywhere: the `switch`'s
`default` branch makes every row pass the condition, the filter stage
keeps all rows, and `queryData` returns a result object. -/
theorem C3_amended (d : CsvData) (f : QueryFilter)
    (h : f.operator ∉
      (["equals", "notEquals", "contains", "gt", "lt", "gte", "lte"] : List String)) :
    (∀ r : Row, evalFilter r f = true) ∧
    filteredRows d { filters := some [f] } = d.rows ∧
    (∃ o, queryData (some d) { filters := some [f] } = .ok o) := by
  simp only [List.mem_cons, List.not_mem_nil, or_false, not_or] at h
  obtain ⟨h1, h2, h3, h4, h5, h6, h7⟩ := h
  have he : ∀ r : Row, evalFilter r f = true := by
    intro r
    simp [evalFilter, h1, h2, h3, h4, h5, h6, h7]
  refine ⟨he, ?_, ⟨_, rfl⟩⟩
  simp only [filteredRows, filterStage]
  rw [if_pos (by simp)]
  apply List.filter_eq_self.mpr
  intro r _
  simp [he r]

/-- C3 witness: the amended statement applied to the concrete operator
`"like"` on a concrete table. -/
theorem C3_amended_witness :
    "like" ∉ (["equals", "notEquals", "contains", "gt", "lt", "gte", "lte"] : List String) ∧
    ((∀ r : Row, evalFilter r ⟨"g", "like", FilterVal.str "nope"⟩ = true) ∧
     filteredRows pairT { filters := some [⟨"g", "like", FilterVal.str "nope"⟩] } = pairT.rows ∧
     (∃ o, queryData (some pairT)
        { filters := some [⟨"g", "like", FilterVal.str "nope"⟩] } = .ok o)) :=
  ⟨by decide, C3_amended pairT ⟨"g", "like", FilterVal.str "nope"⟩ (by decide)⟩

/-- C5 counterexample: the empty string can be a valid header, but the
sort guard `input.sortBy && …` is falsy for it, so `queryData` skips the
sort entirely and a null row stays ahead of a non-null row — the
null-last invariant fails for this valid `sortBy`. -/
theorem C5_counterexample :
    "" ∈ emptyHeadT.headers ∧
    queryData (some emptyHeadT) { sortBy := some "", sortOrder := some SortOrder.asc } =
      .ok ⟨[[("", Value.null)], [("", Value.num 1)]], 2, [""]⟩ ∧
    ¬ (sortedRows emptyHeadT
        { sortBy := some "", sortOrder := some SortOrder.asc }).Pairwise
      (fun a b => isNullJS (rowGet a "") = true → isNullJS (rowGet b "") = true) :=
  ⟨by decide, by decide, by decide⟩

/-- C5 (amended): when `sortBy` names a valid header that is not the empty
string, the sorted sequence computed inside `queryData` places every row
whose sort-column value is null/undefined after all rows with non-null
values — nulls are never interleaved — under either sort order.  (For the
empty-string header the JS truthiness guard skips the sort, leaving the
filter order.) -/
theorem C5_amended (d : CsvData) (i : QueryDataInput) (c : String)
    (hsb : i.sortBy = some c) (hne : c ≠ "") (hc : c ∈ d.headers) :
    (sortedRows d i).Pairwise
      (fun a b => isNullJS (rowGet a c) = true → isNullJS (rowGet b c) = true) := by
  have h1 : ∀ a b : Row, isNullJS (rowGet a c) = true →
      decide (sortCmp c (sortDir i.sortOrder) a b ≤ 0) = false := by
    intro a b ha
    simp [sortCmp, ha]
  have h2 : ∀ a b : Row, isNullJS (rowGet a c) = false → isNullJS (rowGet b c) = true →
      decide (sortCmp c (sortDir i.sortOrder) a b ≤ 0) = true := by
    intro a b ha hb
    simp [sortCmp, ha, hb]
  rw [sortedRows, hsb]
  simp only [sortStage]
  rw [if_pos ⟨hne, hc⟩]
  exact pairwise_insertionSort h1 h2 _

/-- C5 witness: the null-last invariant on a concrete sorted table. -/
theorem C5_amended_witness :
    (({ sortBy := some "a" } : QueryDataInput).sortBy = some "a" ∧
      "a" ≠ "" ∧ "a" ∈ wideT.headers) ∧
    (sortedRows wideT { sortBy := some "a" }).Pairwise
      (fun a b => isNullJS (rowGet a "a") = true → isNullJS (rowGet b "a") = true) :=
  ⟨⟨rfl, by decide, by decide⟩,
   C5_amended wideT { sortBy := some "a" } "a" rfl (by decide) (by decide)⟩

theorem lookup_inferColumnTypes (headers : List String) (rows : List Row) (h : String) :
    h ∈ headers →
    (inferColumnTypes headers rows).lookup h = some (classifyColumn rows h) := by
  induction headers with
  | nil => intro hh; cases hh
  | cons x xs ih =>
    intro hh
    by_cases hx : h = x
    · subst hx
      simp [inferColumnTypes, List.lookup]
    · have hb : (h == x) = false := by simpa using hx
      have hh' : h ∈ xs := by
        rcases List.mem_cons.mp hh with h1 | h1
        · exact absurd h1 hx
        · exact h1
      simpa [inferColumnTypes, List.lookup, hb] using ih hh'

/-- C8: `inferColumnTypes` classifies a header `number` exactly when the
numeric votes strictly exceed 80% of the non-null values of the first
`min(100, rowCount)` rows; `date` exactly when the numeric threshold fails
and the date votes strictly exceed 80%; otherwise `"string"` (the code's
label for the spec's `text`), including every column whose sample has no
non-null value. -/
theorem C8_type_inference (headers : List String) (rows : List Row) (h : String)
    (hh : h ∈ headers) :
    ((inferColumnTypes headers rows).lookup h = some ColType.number ↔
        0 < totalNonNull rows h ∧
          (8 : ℚ) / 10 * (totalNonNull rows h : ℚ) < (numericCount rows h : ℚ)) ∧
    ((inferColumnTypes headers rows).lookup h = some ColType.date ↔
        0 < totalNonNull rows h ∧
          ¬((8 : ℚ) / 10 * (totalNonNull rows h : ℚ) < (numericCount rows h : ℚ)) ∧
          (8 : ℚ) / 10 * (totalNonNull rows h : ℚ) < (dateCount rows h : ℚ)) ∧
    ((inferColumnTypes headers rows).lookup h = some ColType.string ↔
        totalNonNull rows h = 0 ∨
          (¬((8 : ℚ) / 10 * (totalNonNull rows h : ℚ) < (numericCount rows h : ℚ)) ∧
           ¬((8 : ℚ) / 10 * (totalNonNull rows h : ℚ) < (dateCount rows h : ℚ)))) := by
  rw [lookup_inferColumnTypes headers rows h hh]
  by_cases h0 : totalNonNull rows h = 0
  · simp only [classifyColumn, if_pos h0]
    refine ⟨by simp [h0], by simp [h0], by simp [h0]⟩
  · have hpos : 0 < totalNonNull rows h := Nat.pos_of_ne_zero h0
    have hposq : (0 : ℚ) < (totalNonNull rows h : ℚ) := by exact_mod_cast hpos
    have hiff1 : ((numericCount rows h : ℚ) / (totalNonNull rows h : ℚ) > 8 / 10) ↔
        (8 : ℚ) / 10 * (totalNonNull rows h : ℚ) < (numericCount rows h : ℚ) := by
      rw [gt_iff_lt, lt_div_iff₀ hposq]
    have hiff2 : ((dateCount rows h : ℚ) / (totalNonNull rows h : ℚ) > 8 / 10) ↔
        (8 : ℚ) / 10 * (totalNonNull rows h : ℚ) < (dateCount rows h : ℚ) := by
      rw [gt_iff_lt, lt_div_iff₀ hposq]
    by_cases hnum : (8 : ℚ) / 10 * (totalNonNull rows h : ℚ) < (numericCount rows h : ℚ)
    · simp only [classifyColumn, if_neg h0, if_pos (hiff1.mpr hnum)]
      exact ⟨by simp [hpos, hnum], by simp [hnum], by simp [h0, hnum]⟩
    · by_cases hdate : (8 : ℚ) / 10 * (totalNonNull rows h : ℚ) < (dateCount rows h : ℚ)
      · simp only [classifyColumn, if_neg h0,
          if_neg (fun hcond => hnum (hiff1.mp hcond)), if_pos (hiff2.mpr hdate)]
        exact ⟨by simp [hnum], by simp [hpos, hnum, hdate], by simp [h0, hdate]⟩
      · simp only [classifyColumn, if_neg h0,
          if_neg (fun hcond => hnum (hiff1.mp hcond)),
          if_neg (fun hcond => hdate (hiff2.mp hcond))]
        exact ⟨by simp [hnum], by simp [hnum, hdate], by simp [h0, hnum, hdate]⟩

/-- C8 witness: the classification equivalences at a concrete table. -/
theorem C8_type_inference_witness :
    "a" ∈ wideT.headers ∧
    (((inferColumnTypes wideT.headers wideT.rows).lookup "a" = some ColType.number ↔
        0 < totalNonNull wideT.rows "a" ∧
          (8 : ℚ) / 10 * (totalNonNull wideT.rows "a" : ℚ) <
            (numericCount wideT.rows "a" : ℚ)) ∧
     ((inferColumnTypes wideT.headers wideT.rows).lookup "a" = some ColType.date ↔
        0 < totalNonNull wideT.rows "a" ∧
          ¬((8 : ℚ) / 10 * (totalNonNull wideT.rows "a" : ℚ) <
            (numericCount wideT.rows "a" : ℚ)) ∧
          (8 : ℚ) / 10 * (totalNonNull wideT.rows "a" : ℚ) <
            (dateCount wideT.rows "a" : ℚ)) ∧
     ((inferColumnTypes wideT.headers wideT.rows).lookup "a" = some ColType.string ↔
        totalNonNull wideT.rows "a" = 0 ∨
          (¬((8 : ℚ) / 10 * (totalNonNull wideT.rows "a" : ℚ) <
            (numericCount wideT.rows "a" : ℚ)) ∧
           ¬((8 : ℚ) / 10 * (totalNonNull wideT.rows "a" : ℚ) <
            (dateCount wideT.rows "a" : ℚ))))) :=
  ⟨by decide, C8_type_inference wideT.headers wideT.rows "a" (by decide)⟩

theorem lookup_addToGroups (k g : String) (v : Option ℚ) :
    ∀ acc : List (String × List ℚ),
      (addToGroups acc k v).lookup g =
        if g = k then some (((acc.lookup g).getD []) ++ v.toList)
        else acc.lookup g := by
  intro acc
  induction acc with
  | nil =>
    by_cases hg : g = k
    · subst hg; simp [addToGroups, List.lookup]
    · have hb : (g == k) = false := by simpa using hg
      simp [addToGroups, List.lookup, hb, hg]
  | cons p t ih =>
    obtain ⟨k', vs⟩ := p
    simp only [addToGroups]
    by_cases hk : k' = k
    · subst hk
      rw [if_pos rfl]
      by_cases hg : g = k'
      · subst hg
        simp [List.lookup]
      · have hb : (g == k') = false := by simpa using hg
        simp [List.lookup, hb, hg]
    · rw [if_neg hk]
      by_cases hg : g = k'
      · subst hg
        simp [List.lookup, hk]
      · have hb : (g == k') = false := by simpa using hg
        simp only [List.lookup, hb]
        exact ih

/-- The values collected for a group key: the coerced aggregate-column
values of the rows whose group-column string form equals the key. -/
def rowsGroupVals (gb ac : String) (rows : List Row) (g : String) : List ℚ :=
  (rows.filter (fun r => jsStr (rowGet r gb) == g)).filterMap
    (fun r => jsNum (rowGet r ac))

theorem lookup_buildGroups_aux (gb ac : String) :
    ∀ (rows : List Row) (acc : List (String × List ℚ)) (g : String),
      ((rows.foldl
        (fun acc r => addToGroups acc (jsStr (rowGet r gb)) (jsNum (rowGet r ac)))
        acc).lookup g).getD [] =
      ((acc.lookup g).getD []) ++ rowsGroupVals gb ac rows g := by
  intro rows
  induction rows with
  | nil =>
    intro acc g
    simp [rowsGroupVals]
  | cons r rs ih =>
    intro acc g
    simp only [List.foldl_cons]
    rw [ih, lookup_addToGroups]
    by_cases hg : g = jsStr (rowGet r gb)
    · rw [if_pos hg]
      have hbe : (jsStr (rowGet r gb) == g) = true := by simp [hg]
      simp only [rowsGroupVals, List.filter_cons, hbe, if_pos, Option.getD_some,
        List.filterMap_cons]
      cases hv : jsNum (rowGet r ac) with
      | none => simp [List.append_assoc]
      | some q => simp [List.append_assoc]
    · rw [if_neg hg]
      have hbe : (jsStr (rowGet r gb) == g) = false := by
        simp only [beq_eq_false_iff_ne, ne_eq]
        exact fun he => hg he.symm
      simp only [rowsGroupVals, List.filter_cons, hbe]
      simp

theorem lookup_buildGroups (gb ac : String) (rows : List Row) (g : String) :
    ((buildGroups rows gb ac).lookup g).getD [] = rowsGroupVals gb ac rows g := by
  rw [buildGroups, lookup_buildGroups_aux]
  simp [List.lookup]

theorem addToGroups_keys (k : String) (v : Option ℚ) :
    ∀ acc : List (String × List ℚ),
      (addToGroups acc k v).map Prod.fst =
        if k ∈ acc.map Prod.fst then acc.map Prod.fst else acc.map Prod.fst ++ [k] := by
  intro acc
  induction acc with
  | nil => simp [addToGroups]
  | cons p t ih =>
    obtain ⟨k', vs⟩ := p
    simp only [addToGroups]
    by_cases hk : k' = k
    · subst hk
      simp [List.mem_cons]
    · rw [if_neg hk]
      simp only [List.map_cons, List.mem_cons]
      rw [ih]
      by_cases hm : k ∈ t.map Prod.fst
      · simp [hm]
      · have hne : ¬(k = k') := fun he => hk he.symm
        simp [hm, hne]

theorem buildGroups_keys_nodup (gb ac : String) :
    ∀ (rows : List Row) (acc : List (String × List ℚ)),
      (acc.map Prod.fst).Nodup →
      ((rows.foldl
        (fun acc r => addToGroups acc (jsStr (rowGet r gb)) (jsNum (rowGet r ac)))
        acc).map Prod.fst).Nodup := by
  intro rows
  induction rows with
  | nil => intro acc h; simpa using h
  | cons r rs ih =>
    intro acc h
    simp only [List.foldl_cons]
    apply ih
    rw [addToGroups_keys]
    by_cases hm : jsStr (rowGet r gb) ∈ acc.map Prod.fst
    · simpa [hm] using h
    · rw [if_neg hm]
      simp only [List.nodup_append, List.nodup_singleton]
      exact ⟨h, by simpa using fun hx => hm hx⟩

theorem lookup_of_mem_of_nodup_keys {β : Type} :
    ∀ (l : List (String × β)) (g : String) (b : β),
      (g, b) ∈ l → (l.map Prod.fst).Nodup → l.lookup g = some b := by
  intro l
  induction l with
  | nil => intro g b h; cases h
  | cons p t ih =>
    intro g b hmem hnd
    obtain ⟨k, vs⟩ := p
    simp only [List.map_cons, List.nodup_cons] at hnd
    rcases List.mem_cons.mp hmem with he | ht
    · injection he with h1 h2
      subst h1; subst h2
      simp [List.lookup]
    · have hg : g ≠ k := by
        intro he2
        subst he2
        exact hnd.1 (List.mem_map.mpr ⟨(g, b), ht, rfl⟩)
      have hb : (g == k) = false := by simpa using hg
      simp only [List.lookup, hb]
      exact ih g b ht hnd.2

/-- Rounding to two decimals is the identity on (casts of) naturals. -/
theorem jsRound2_natCast (n : ℕ) : jsRound2 (n : ℚ) = n := by
  rw [jsRound2]
  have h1 : ((n : ℚ) * 100) = ((n * 100 : ℕ) : ℚ) := by push_cast; ring
  rw [h1, round_natCast]
  push_cast
  field_simp

theorem length_filterMap_eq_length_filter {α β : Type} (f : α → Option β) :
    ∀ l : List α, (l.filterMap f).length = (l.filter (fun a => (f a).isSome)).length := by
  intro l
  induction l with
  | nil => simp
  | cons a t ih =>
    cases hf : f a with
    | none => simp [List.filterMap_cons, List.filter_cons, hf, ih]
    | some b => simp [List.filterMap_cons, List.filter_cons, hf, ih]

/-- C2 counterexample: the group `"a"` of the concrete table has exactly
one row, whose aggregate value `"x"` does not coerce to a number, yet
`aggregateData` with `operation = count` reports 0 for it — the row was
dropped from the count. -/
theorem C2_counterexample :
    aggregateData (some pairT) ⟨"g", "v", AggOp.count, none, none, none⟩ =
      .ok ⟨"g", "v", AggOp.count, [⟨"a", 0⟩, ⟨"b", 1⟩]⟩ ∧
    (pairT.rows.filter (fun r => jsStr (rowGet r "g") == "a")).length = 1 ∧
    (0 : ℚ) ≠ 1 :=
  ⟨by decide, by decide, by decide⟩

/-- C2 (amended): `aggregateData` with `operation = count` returns, for
each reported group, the number of rows of that group whose
`aggregateColumn` value coerces to a number (`null` coerces to `0` and
counts; rows failing coercion are dropped from the count too). -/
theorem C2_amended (d : CsvData) (i : AggregateDataInput)
    (hop : i.operation = AggOp.count)
    (hgb : i.groupBy ∈ d.headers) (hac : i.aggregateColumn ∈ d.headers) :
    ∀ o, aggregateData (some d) i = .ok o →
      ∀ e ∈ o.results,
        e.value = ((d.rows.filter (fun r =>
            jsStr (rowGet r i.groupBy) == e.group &&
              (jsNum (rowGet r i.aggregateColumn)).isSome)).length : ℚ) := by
  intro o ho e he
  simp only [aggregateData, if_pos hgb, if_pos hac, Except.ok.injEq] at ho
  subst ho
  simp only at he
  have he2 : e ∈ insertionSort
      (fun a b => decide (aggCmp i.sortBy (sortDir i.sortOrder) a b ≤ 0))
      ((buildGroups d.rows i.groupBy i.aggregateColumn).map
        (fun p => AggregateItem.mk p.1 (jsRound2 (aggReduce i.operation p.2)))) := by
    rcases hl : i.limit with _ | n
    · rw [hl] at he
      simpa using he
    · rw [hl] at he
      simp only at he
      by_cases hn : n ≠ 0
      · rw [if_pos hn] at he
        exact List.mem_of_mem_take he
      · rw [if_neg hn] at he
        exact he
  rw [mem_insertionSort] at he2
  rcases List.mem_map.mp he2 with ⟨p, hp, hpe⟩
  obtain ⟨g, vs⟩ := p
  have hnd : ((buildGroups d.rows i.groupBy i.aggregateColumn).map Prod.fst).Nodup := by
    apply buildGroups_keys_nodup
    simp
  have hlk := lookup_of_mem_of_nodup_keys _ g vs hp hnd
  have hvs : vs = rowsGroupVals i.groupBy i.aggregateColumn d.rows g := by
    have := lookup_buildGroups i.groupBy i.aggregateColumn d.rows g
    rw [hlk] at this
    simpa using this
  subst hpe
  rw [hop]
  show jsRound2 ((vs.length : ℚ)) = _
  rw [jsRound2_natCast, hvs, rowsGroupVals, length_filterMap_eq_length_filter,
    List.filter_filter]
  show _ = ((List.filter (fun r => jsStr (rowGet r i.groupBy) == g &&
      (jsNum (rowGet r i.aggregateColumn)).isSome) d.rows).length : ℚ)
  norm_cast
  congr 1
  apply List.filter_congr
  intro r _
  exact Bool.and_comm _ _

/-- C2 witness: the amended count semantics at the concrete table. -/
theorem C2_amended_witness :
    (AggOp.count = AggOp.count ∧ "g" ∈ pairT.headers ∧ "v" ∈ pairT.headers) ∧
    (∀ o, aggregateData (some pairT) ⟨"g", "v", AggOp.count, none, none, none⟩ = .ok o →
      ∀ e ∈ o.results,
        e.value = ((pairT.rows.filter (fun r =>
            jsStr (rowGet r "g") == e.group &&
              (jsNum (rowGet r "v")).isSome)).length : ℚ)) :=
  ⟨⟨rfl, by decide, by decide⟩,
   C2_amended pairT ⟨"g", "v", AggOp.count, none, none, none⟩ rfl (by decide) (by decide)⟩

theorem bumpCount_sum (k : String) :
    ∀ l : List (String × ℕ),
      ((bumpCount l k).map Prod.snd).sum = (l.map Prod.snd).sum + 1 := by
  intro l
  induction l with
  | nil => simp [bumpCount]
  | cons p t ih =>
    obtain ⟨k', n⟩ := p
    simp only [bumpCount]
    by_cases hk : k' = k
    · rw [if_pos hk]
      simp only [List.map_cons, List.sum_cons]
      omega
    · rw [if_neg hk]
      simp only [List.map_cons, List.sum_cons, ih]
      omega

theorem buildCounts_sum_aux (c : String) :
    ∀ (rows : List Row) (acc : List (String × ℕ)),
      (((rows.foldl (fun acc r => bumpCount acc (jsStr (rowGet r c))) acc).map
        Prod.snd).sum) = ((acc.map Prod.snd).sum) + rows.length := by
  intro rows
  induction rows with
  | nil => intro acc; simp
  | cons r rs ih =>
    intro acc
    simp only [List.foldl_cons]
    rw [ih, bumpCount_sum]
    simp only [List.length_cons]
    omega

theorem buildCounts_sum (c : String) (rows : List Row) :
    ((buildCounts rows c).map Prod.snd).sum = rows.length := by
  rw [buildCounts, buildCounts_sum_aux]
  simp

theorem pctOf_close (T n : ℕ) :
    |pctOf T n - (n : ℚ) / (T : ℚ) * 100| ≤ 1 / 200 := by
  have h := abs_sub_round ((n : ℚ) / (T : ℚ) * 10000)
  rw [pctOf]
  rw [show (n : ℚ) / (T : ℚ) * 100 = ((n : ℚ) / (T : ℚ) * 10000) / 100 by ring]
  rw [div_sub_div_same, abs_div]
  rw [show |(100 : ℚ)| = 100 by norm_num]
  rw [abs_sub_comm]
  linarith

theorem pct_sum_close (T : ℕ) :
    ∀ l : List (String × ℕ),
      |(l.map (fun p => pctOf T p.2)).sum -
        ((l.map Prod.snd).sum : ℚ) / (T : ℚ) * 100| ≤ (l.length : ℚ) * (1 / 200) := by
  intro l
  induction l with
  | nil => simp
  | cons p t ih =>
    simp only [List.map_cons, List.sum_cons, List.length_cons]
    have h1 := pctOf_close T p.2
    have key : pctOf T p.2 + (t.map (fun p => pctOf T p.2)).sum -
        ((p.2 + (t.map Prod.snd).sum : ℕ) : ℚ) / (T : ℚ) * 100 =
        (pctOf T p.2 - (p.2 : ℚ) / (T : ℚ) * 100) +
          ((t.map (fun p => pctOf T p.2)).sum -
            ((t.map Prod.snd).sum : ℚ) / (T : ℚ) * 100) := by
      push_cast
      ring
    rw [key]
    have htri := abs_add (pctOf T p.2 - (p.2 : ℚ) / (T : ℚ) * 100)
      ((t.map (fun p => pctOf T p.2)).sum - ((t.map Prod.snd).sum : ℚ) / (T : ℚ) * 100)
    have hsum := add_le_add h1 ih
    push_cast
    push_cast at htri hsum
    linarith

/-- C7: on a non-empty table with a valid column and no truncation
(`limit` at least the number of distinct string forms), the `percentage`
fields of `getColumnValues` sum to 100 within (number of entries) × 0.01. -/
theorem C7_percentage_sum (d : CsvData) (c : String) (n : ℕ)
    (hc : c ∈ d.headers) (hr : d.rows ≠ [])
    (hn : (buildCounts d.rows c).length ≤ n) :
    ∀ o, getColumnValues (some d) ⟨c, some n⟩ = .ok o →
      |(o.values.map ColumnValueItem.percentage).sum - 100| ≤
        (o.values.length : ℚ) * (1 / 100) := by
  intro o ho
  simp only [getColumnValues, if_pos hc, Except.ok.injEq] at ho
  subst ho
  simp only [Option.getD_some]
  have hlen : (insertionSort (fun a b : String × ℕ => decide (b.2 ≤ a.2))
      (buildCounts d.rows c)).length = (buildCounts d.rows c).length :=
    length_insertionSort _ _
  rw [List.take_of_length_le (by rw [hlen]; exact hn)]
  rw [List.map_map, List.length_map]
  have hperm : List.Perm
      (insertionSort (fun a b : String × ℕ => decide (b.2 ≤ a.2)) (buildCounts d.rows c))
      (buildCounts d.rows c) := insertionSort_perm _ _
  have hsum : (((insertionSort (fun a b : String × ℕ => decide (b.2 ≤ a.2))
      (buildCounts d.rows c)).map Prod.snd).sum) = d.rows.length := by
    rw [(hperm.map Prod.snd).sum_eq, buildCounts_sum]
  have hT : ((d.rows.length : ℕ) : ℚ) ≠ 0 := by
    have : d.rows.length ≠ 0 := fun h0 => hr (List.length_eq_zero.mp h0)
    exact_mod_cast this
  have hclose := pct_sum_close d.rows.length
    (insertionSort (fun a b : String × ℕ => decide (b.2 ≤ a.2)) (buildCounts d.rows c))
  rw [hsum] at hclose
  rw [div_self hT, one_mul] at hclose
  have hmapeq : ((insertionSort (fun a b : String × ℕ => decide (b.2 ≤ a.2))
        (buildCounts d.rows c)).map
      (ColumnValueItem.percentage ∘ fun p => ⟨p.1, p.2, pctOf d.rows.length p.2⟩)) =
      ((insertionSort (fun a b : String × ℕ => decide (b.2 ≤ a.2))
        (buildCounts d.rows c)).map (fun p => pctOf d.rows.length p.2)) := rfl
  rw [hmapeq]
  have hmono : ((insertionSort (fun a b : String × ℕ => decide (b.2 ≤ a.2))
      (buildCounts d.rows c)).length : ℚ) * (1 / 200) ≤
      ((insertionSort (fun a b : String × ℕ => decide (b.2 ≤ a.2))
        (buildCounts d.rows c)).length : ℚ) * (1 / 100) := by
    apply mul_le_mul_of_nonneg_left (by norm_num) (by positivity)
  linarith

/-- C7 witness: the percentage-sum bound at a concrete table. -/
theorem C7_percentage_sum_witness :
    ("b" ∈ wideT.headers ∧ wideT.rows ≠ [] ∧ (buildCounts wideT.rows "b").length ≤ 5) ∧
    (∀ o, getColumnValues (some wideT) ⟨"b", some 5⟩ = .ok o →
      |(o.values.map ColumnValueItem.percentage).sum - 100| ≤
        (o.values.length : ℚ) * (1 / 100)) :=
  ⟨⟨by decide, by decide, by decide⟩,
   C7_percentage_sum wideT "b" 5 (by decide) (by decide) (by decide)⟩

theorem queryRowsOf_some (d : CsvData) (i : QueryDataInput) :
    queryRowsOf (some d) i =
      (((sortedRows d i).drop (i.offset.getD 0)).take (i.limit.getD 50)).map
        (projectRow (projCols d i)) := rfl

theorem queryTotalOf_some (d : CsvData) (i : QueryDataInput) :
    queryTotalOf (some d) i = (sortedRows d i).length := rfl

theorem projectRow_self :
    ∀ r : Row, (r.map Prod.fst).Nodup → projectRow (r.map Prod.fst) r = r := by
  intro r
  induction r with
  | nil => intro _; simp [projectRow]
  | cons p t ih =>
    obtain ⟨k, v⟩ := p
    intro hnd
    simp only [List.map_cons, List.nodup_cons] at hnd
    obtain ⟨hk, hnd2⟩ := hnd
    simp only [projectRow, List.map_cons, List.filterMap_cons]
    have h1 : rowGet ((k, v) :: t) k = some v := by simp [rowGet, List.lookup]
    rw [h1]
    simp only [Option.map_some']
    have h2 : ∀ c ∈ t.map Prod.fst,
        (rowGet ((k, v) :: t) c).map (fun v2 => (c, v2)) =
          (rowGet t c).map (fun v2 => (c, v2)) := by
      intro c hcm
      have hck : ¬(c = k) := fun he => hk (he ▸ hcm)
      have hb : (c == k) = false := by simpa using hck
      simp [rowGet, List.lookup, hb]
    rw [List.filterMap_congr h2]
    exact congrArg (List.cons (k, v)) (ih hnd2)

theorem mem_filterStage (rows : List Row) (fs? : Option (List QueryFilter)) (r : Row) :
    r ∈ filterStage rows fs? → r ∈ rows := by
  intro h
  rcases fs? with _ | fs
  · simpa [filterStage] using h
  · simp only [filterStage] at h
    by_cases hl : fs.length > 0
    · rw [if_pos hl] at h
      exact List.mem_of_mem_filter h
    · rwa [if_neg hl] at h

theorem mem_sortStage (d : CsvData) (sb : Option String) (so : Option SortOrder)
    (l : List Row) (r : Row) : r ∈ sortStage d sb so l → r ∈ l := by
  intro h
  rcases sb with _ | c
  · simpa [sortStage] using h
  · simp only [sortStage] at h
    by_cases hc : c ≠ "" ∧ c ∈ d.headers
    · rw [if_pos hc] at h
      exact (mem_insertionSort _ _ _).mp h
    · rwa [if_neg hc] at h

theorem mem_sortedRows (d : CsvData) (i : QueryDataInput) (r : Row) :
    r ∈ sortedRows d i → r ∈ d.rows := by
  intro h
  exact mem_filterStage _ _ _ (mem_sortStage _ _ _ _ _ h)

/-- C6: over a well-formed table (unique headers, every row keyed exactly
by the headers) and with no projection requested, concatenating the `rows`
fields of `queryData` pages `offset = 0, N, 2N, …` with `limit = N`
reconstructs the filtered-and-sorted row sequence exactly — no gaps, no
duplicates — and every page reports the same `totalMatched`. -/
theorem C6_pagination (d : CsvData) (base : QueryDataInput) (N k : ℕ)
    (hnd : d.headers.Nodup)
    (hwf : ∀ r ∈ d.rows, r.map Prod.fst = d.headers)
    (hcols : base.columns = none)
    (hN : 1 ≤ N) (hk : (sortedRows d base).length ≤ k * N) :
    ((List.range k).map (fun i =>
        queryRowsOf (some d) { base with offset := some (i * N), limit := some N })).flatten =
      sortedRows d base ∧
    ∀ i : ℕ, queryTotalOf (some d) { base with offset := some (i * N), limit := some N } =
      (sortedRows d base).length := by
  have hsr : ∀ x y : Option ℕ,
      sortedRows d { base with offset := x, limit := y } = sortedRows d base :=
    fun _ _ => rfl
  have hpc : ∀ x y : Option ℕ,
      projCols d { base with offset := x, limit := y } = d.headers := by
    intro x y
    show projStage d base.columns = d.headers
    rw [hcols]
    simp [projStage]
  refine ⟨?_, ?_⟩
  · have hmape : ((List.range k).map (fun i =>
        queryRowsOf (some d) { base with offset := some (i * N), limit := some N })) =
        ((List.range k).map (fun i =>
          (((sortedRows d base).drop (i * N)).take N).map (projectRow d.headers))) := by
      apply List.map_congr_left
      intro i _
      rw [queryRowsOf_some, hsr, hpc]
      rfl
    rw [hmape]
    have hflat : ((List.range k).map (fun i =>
        (((sortedRows d base).drop (i * N)).take N).map (projectRow d.headers))).flatten =
        (((List.range k).map (fun i =>
          ((sortedRows d base).drop (i * N)).take N)).flatten).map (projectRow d.headers) := by
      rw [List.map_flatten, List.map_map]
      rfl
    rw [hflat, flatMap_chunks, List.take_of_length_le hk]
    have : ∀ r ∈ sortedRows d base, projectRow d.headers r = r := by
      intro r hr
      have hwr := hwf r (mem_sortedRows d base r hr)
      rw [← hwr]
      apply projectRow_self
      rw [hwr]
      exact hnd
    calc (sortedRows d base).map (projectRow d.headers)
        = (sortedRows d base).map id := List.map_congr_left (fun r hr => this r hr)
      _ = sortedRows d base := List.map_id _
  · intro i
    rw [queryTotalOf_some, hsr]

/-- C6 witness: page reconstruction at a concrete table with `N = 2`,
`k = 2`. -/
theorem C6_pagination_witness :
    (wideT.headers.Nodup ∧ (∀ r ∈ wideT.rows, r.map Prod.fst = wideT.headers) ∧
     ({} : QueryDataInput).columns = none ∧ 1 ≤ 2 ∧
     (sortedRows wideT {}).length ≤ 2 * 2) ∧
    (((List.range 2).map (fun i =>
        queryRowsOf (some wideT) { ({} : QueryDataInput) with
          offset := some (i * 2), limit := some 2 })).flatten =
      sortedRows wideT {} ∧
    ∀ i : ℕ, queryTotalOf (some wideT)
        { ({} : QueryDataInput) with offset := some (i * 2), limit := some 2 } =
      (sortedRows wideT {}).length) :=
  ⟨⟨by decide, by decide, rfl, by decide, by decide⟩,
   C6_pagination wideT {} 2 2 (by decide) (by decide) rfl (by decide) (by decide)⟩

end DataMind
